import Mathlib

/-
Verification development for the PBR-2-Source texture assembly pipeline.

The shallow embedding below translates the core of
src/src/module/gui/backend.py (class CoreBackend) and the export /
watch control flow of src/src/module/gui/__init__.py (class MainWindow).
Images are modelled as functions from pixel coordinates to lists of
rational components; machine state (the per-role channel store, the
MainWindow flags, the watch set) is threaded explicitly.  Parts of the
repository that live outside src/ (the core.* modules: texops,
core.io.image, core.convert, core.vmt, core.material) are modelled from
the specification and marked as such in their doc comments.
-/

namespace PBR

/-- Canonical color modes of the pipeline: single-component scalar (L)
or three-component color (RGB).  From the spec's data model for
NormalizedChannel; the Python side uses PIL-style mode strings. -/
inductive ColorMode
  | L
  | RGB
deriving DecidableEq

/-- Modelled from the spec: core.io.image.Image is not under src/.  An
in-memory bitmap: a pixel size plus a function giving, per coordinate,
the list of color components (rationals standing in for the numeric
sample values). -/
structure Image where
  w : Nat
  h : Nat
  mode : ColorMode
  pix : Nat → Nat → List ℚ

/-- Size of an image as a (width, height) pair. -/
def Image.size (i : Image) : Nat × Nat := (i.w, i.h)

/-- Modelled from the spec: Image.blank (core.io.image, not under src/)
synthesizes a flat-color bitmap at the given size; the mode is the
canonical mode matching the number of components. -/
def Image.blank (size : Nat × Nat) (color : List ℚ) : Image :=
  { w := size.1, h := size.2,
    mode := if color.length = 1 then .L else .RGB,
    pix := fun _ _ => color }

/-- Modelled from the spec: resize with the stretch-to-exact-dimensions
align policy (no cropping): every target pixel samples the source at the
proportionally scaled coordinate. -/
def Image.resize (i : Image) (size : Nat × Nat) : Image :=
  { w := size.1, h := size.2, mode := i.mode,
    pix := fun x y => i.pix (x * i.w / size.1) (y * i.h / size.2) }

/-- Modelled from the spec: conversion of a pixel to a single scalar
component (grayscale reduction). -/
def luminance (p : List ℚ) : ℚ := p.sum / p.length

/-- Modelled from the spec: conversion of a bitmap to a canonical color
mode.  A bitmap already in the requested mode is returned unchanged. -/
def Image.convertMode (i : Image) (m : ColorMode) : Image :=
  if i.mode = m then i
  else
    match m with
    | .L => { w := i.w, h := i.h, mode := .L,
              pix := fun x y => [luminance (i.pix x y)] }
    | .RGB => { w := i.w, h := i.h, mode := .RGB,
                pix := fun x y =>
                  match i.pix x y with
                  | [v] => [v, v, v]
                  | p => p }

namespace texops

/-- Modelled from the spec: module.core.texops.normalize is not under
src/.  Resizes the image to the given size when one is supplied (the
call sites in make_material pass the reference size or no size at all),
then converts it to the requested canonical color mode. -/
def normalize (i : Image) (size : Option (Nat × Nat)) (mode : ColorMode) : Image :=
  (match size with
   | some s => i.resize s
   | none => i).convertMode mode

end texops

/-- Game targets, from the dropdown table in src/src/module/gui/__init__.py. -/
inductive GameTarget
  | V2007
  | V2011
  | VGMOD
  | V2023
deriving DecidableEq

/-- Shading modes, from the dropdown table in src/src/module/gui/__init__.py. -/
inductive MaterialMode
  | PBRModel
  | PhongEnvmap
  | PhongEnvmapAlpha
  | PhongEnvmapEmit
  | PBRBrush
  | Envmap
  | EnvmapAlpha
  | EnvmapEmit
deriving DecidableEq

/-- Modelled from the spec: core.material.Material is not under src/.
Field list read off the keyword-argument constructor call in
CoreBackend.make_material: shading mode, engine target, pixel size,
material name, and the seven channels (emit and ao optional). -/
structure Material where
  mode : MaterialMode
  target : GameTarget
  size : Nat × Nat
  name : String
  albedo : Image
  roughness : Image
  metallic : Image
  emit : Option Image
  ao : Option Image
  normal : Image
  height : Option Image

/-- The seven channel roles, from the ImageRole enum in backend.py. -/
inductive ImageRole
  | Albedo
  | Roughness
  | Metallic
  | Emit
  | AO
  | Normal
  | Height
deriving DecidableEq

/-- Pipeline errors.  decodeError models the exception raised by the
decoder boundary (QtIOBackend.load) naming the offending path;
missingChannel models the mandatory-channel assertions in
make_material; assertionFailed models the entry assertion of
CoreBackend.export. -/
inductive PipelineError
  | decodeError (path : String)
  | missingChannel (role : ImageRole)
  | assertionFailed
deriving DecidableEq

/-- The channel store and conversion state of backend.py's CoreBackend:
per role the cached decoded image and the picked source path, plus the
output directory (as a component list), the material name, and the
game/mode settings. -/
structure CoreBackend where
  albedo : Option Image
  roughness : Option Image
  metallic : Option Image
  emit : Option Image
  ao : Option Image
  normal : Option Image
  height : Option Image
  albedoPath : Option String
  roughnessPath : Option String
  metallicPath : Option String
  emitPath : Option String
  aoPath : Option String
  normalPath : Option String
  heightPath : Option String
  path : Option (List String)
  name : String
  game : GameTarget
  mode : MaterialMode

/-- Fresh backend with the class-attribute defaults of CoreBackend.
The game/mode defaults come from the Preset module (not under src/);
they are irrelevant to every claim, so any fixed pair serves. -/
def CoreBackend.init (g : GameTarget) (md : MaterialMode) : CoreBackend :=
  { albedo := none, roughness := none, metallic := none, emit := none,
    ao := none, normal := none, height := none,
    albedoPath := none, roughnessPath := none, metallicPath := none,
    emitPath := none, aoPath := none, normalPath := none, heightPath := none,
    path := none, name := "ThisShouldNeverAppear", game := g, mode := md }

/-- Per-role read of the cached decoded image (getattr(self, role)). -/
def CoreBackend.roleImage (role : ImageRole) (b : CoreBackend) : Option Image :=
  match role with
  | .Albedo => b.albedo
  | .Roughness => b.roughness
  | .Metallic => b.metallic
  | .Emit => b.emit
  | .AO => b.ao
  | .Normal => b.normal
  | .Height => b.height

/-- Per-role read of the stored source path (getattr(self, role+'Path')). -/
def CoreBackend.rolePath (role : ImageRole) (b : CoreBackend) : Option String :=
  match role with
  | .Albedo => b.albedoPath
  | .Roughness => b.roughnessPath
  | .Metallic => b.metallicPath
  | .Emit => b.emitPath
  | .AO => b.aoPath
  | .Normal => b.normalPath
  | .Height => b.heightPath

/-- Per-role write of the cached decoded image (setattr(self, role, v)). -/
def CoreBackend.setRoleImage (role : ImageRole) (v : Option Image) (b : CoreBackend) : CoreBackend :=
  match role with
  | .Albedo => { b with albedo := v }
  | .Roughness => { b with roughness := v }
  | .Metallic => { b with metallic := v }
  | .Emit => { b with emit := v }
  | .AO => { b with ao := v }
  | .Normal => { b with normal := v }
  | .Height => { b with height := v }

/-- Per-role write of the stored source path (setattr(self, role+'Path', v)). -/
def CoreBackend.setRolePath (role : ImageRole) (v : Option String) (b : CoreBackend) : CoreBackend :=
  match role with
  | .Albedo => { b with albedoPath := v }
  | .Roughness => { b with roughnessPath := v }
  | .Metallic => { b with metallicPath := v }
  | .Emit => { b with emitPath := v }
  | .AO => { b with aoPath := v }
  | .Normal => { b with normalPath := v }
  | .Height => { b with heightPath := v }

/-- Translated from CoreBackend.convert (backend.py lines 68-88).  Both
source branches (the vtf/hdr branch using QtIOBackend.load and the
common-raster branch using load_qimage) decode the file at the given
path through the decoder boundary, modelled here as the function
argument dec; the QImage preview value returned alongside is
presentation glue outside the core and is dropped.  On decode success
the converted image is stored for the role; on failure the exception
propagates and nothing is stored by convert itself. -/
def CoreBackend.convert (dec : String → Option Image) (path : String)
    (role : ImageRole) (b : CoreBackend) : Except PipelineError (CoreBackend × Image) :=
  match dec path with
  | none => .error (.decodeError path)
  | some converted => .ok (CoreBackend.setRoleImage role (some converted) b, converted)

/-- Translated from CoreBackend.pick (backend.py lines 90-100).  The
source path for the role is updated first; then, if a path was given,
the file is decoded and cached (a decode failure propagates, leaving
the already-updated path in place, mirroring the Python exception
flow); if the path is None the cached image is removed.  Returns the
state after the call together with the result (decoded image, nothing,
or the decode error). -/
def CoreBackend.pick (dec : String → Option Image) (path : Option String)
    (role : ImageRole) (b : CoreBackend) :
    CoreBackend × Except PipelineError (Option Image) :=
  let b1 := CoreBackend.setRolePath role path b
  match path with
  | some p =>
    match CoreBackend.convert dec p role b1 with
    | .ok (b2, img) => (b2, .ok (some img))
    | .error e => (b1, .error e)
  | none => (CoreBackend.setRoleImage role none b1, .ok none)

/-- Python str.removesuffix: drops the suffix when the string ends with
it, otherwise returns the string unchanged. -/
def removesuffix (s suffix : String) : String :=
  if suffix.data.isSuffixOf s.data then
    String.mk (s.data.take (s.data.length - suffix.data.length))
  else s

/-- The accumulation loop of CoreBackend.pick_vmt (backend.py lines
109-113), walking the ancestor components nearest-to-file first:
stops with flag true at the first component equal to the literal
token, otherwise prepends the component and a slash to the
accumulator. -/
def nameLoop : List String → String → String × Bool
  | [], acc => (acc, false)
  | c :: rest, acc =>
      if c = "materials" then (acc, true)
      else nameLoop rest (c ++ "/" ++ acc)

/-- Translated from CoreBackend.pick_vmt (backend.py lines 102-115).
A filesystem path is represented by its component list (Python
Path.parts); the last component is the filename, the rest are the
ancestors.  Stores the parent directory and derives the material
name. -/
def CoreBackend.pick_vmt (parts : List String) (b : CoreBackend) : CoreBackend :=
  let name := removesuffix (parts.getLastD "") ".vmt"
  let r := nameLoop parts.dropLast.reverse ""
  { b with path := some parts.dropLast,
           name := if r.2 then r.1 ++ name else name }

/-- Translated from the getImage helper inside CoreBackend.make_material
(backend.py lines 120-126): with the cache disabled the stored path for
the role is re-decoded from disk (mutating the store via convert),
otherwise the cached image is returned. -/
def CoreBackend.getImage (dec : String → Option Image) (noCache : Bool)
    (role : ImageRole) (b : CoreBackend) :
    Except PipelineError (CoreBackend × Option Image) :=
  if noCache then
    match CoreBackend.rolePath role b with
    | none => .ok (b, none)
    | some rolePath =>
      match CoreBackend.convert dec rolePath role b with
      | .ok (b2, img) => .ok (b2, some img)
      | .error e => .error e
  else .ok (b, CoreBackend.roleImage role b)

/-- Translated from CoreBackend.make_material (backend.py lines
117-154).  The two mandatory-channel assertions become missingChannel
errors; missing optional channels receive the synthesized flat-color
defaults of the source; the Material is then constructed with the
texops.normalize calls exactly as written (note that the source passes
normal.size as the resize target for roughness/metallic/height,
albedo.size for emit/ao, and no size for albedo/normal, and that the
height default makes the height argument always present). -/
def CoreBackend.make_material (dec : String → Option Image) (noCache : Bool)
    (b0 : CoreBackend) : Except PipelineError (CoreBackend × Material) := do
  let (b1, albedoO) ← CoreBackend.getImage dec noCache .Albedo b0
  let some albedo := albedoO | .error (.missingChannel .Albedo)
  let (b2, roughnessO) ← CoreBackend.getImage dec noCache .Roughness b1
  let some roughness := roughnessO | .error (.missingChannel .Roughness)
  let (b3, metallicO) ← CoreBackend.getImage dec noCache .Metallic b2
  let metallic := metallicO.getD (Image.blank roughness.size [0])
  let (b4, emit) ← CoreBackend.getImage dec noCache .Emit b3
  let (b5, ao) ← CoreBackend.getImage dec noCache .AO b4
  let (b6, normalO) ← CoreBackend.getImage dec noCache .Normal b5
  let normal := normalO.getD (Image.blank roughness.size [0.5, 0.5, 1.0])
  let (b7, heightO) ← CoreBackend.getImage dec noCache .Height b6
  let height := heightO.getD (Image.blank normal.size [0.5])
  .ok (b7,
    { mode := b7.mode,
      target := b7.game,
      size := normal.size,
      name := b7.name,
      albedo := texops.normalize albedo none .RGB,
      roughness := texops.normalize roughness (some normal.size) .L,
      metallic := texops.normalize metallic (some normal.size) .L,
      emit := emit.map (fun e => texops.normalize e (some albedo.size) .L),
      ao := ao.map (fun a => texops.normalize a (some albedo.size) .L),
      normal := texops.normalize normal none .RGB,
      height := some (texops.normalize height (some normal.size) .L) })

/-- One texture artifact produced by the core exporter: the filename
suffix and the image to encode. -/
structure Texture where
  name : String
  image : Image

/-- Modelled from the spec: core.convert.export is not under src/.  The
closed per-mode table determining which channel combinations are packed
into which output textures; the PBR modes emit the albedo texture, a
packed roughness/metallic/AO texture and the bump map, the
envmap-family modes emit the albedo and bump textures, with the
emission modes adding an emission texture.  Only the suffix/ordering
structure matters to the claims below. -/
def core_export (m : Material) : List Texture :=
  match m.mode with
  | .PBRModel | .PBRBrush =>
      [{ name := "", image := m.albedo },
       { name := "_mrao", image := m.roughness },
       { name := "_bump", image := m.normal }]
  | .PhongEnvmap | .Envmap | .PhongEnvmapAlpha | .EnvmapAlpha =>
      [{ name := "", image := m.albedo },
       { name := "_bump", image := m.normal }]
  | .PhongEnvmapEmit | .EnvmapEmit =>
      [{ name := "", image := m.albedo },
       { name := "_bump", image := m.normal }] ++
      (match m.emit with
       | some e => [{ name := "_emit", image := e }]
       | none => [])

/-- Modelled from the spec: GameTarget.vtf_version (core.material, not
under src/) is a closed lookup from engine target to binary texture
format version. -/
def GameTarget.vtf_version (t : GameTarget) : Nat :=
  match t with
  | .V2007 => 3
  | .V2011 => 4
  | .VGMOD => 4
  | .V2023 => 6

/-- Modelled from the spec: core.vmt.make_vmt (not under src/) renders
the material descriptor document as text referencing the material by
its full (virtual sub-path) name. -/
def make_vmt (m : Material) : String :=
  "material " ++ m.name

/-- Python self.name.rsplit('/', 1)[-1]: the substring after the last
slash, or the whole string when no slash occurs. -/
def isolatedName (s : String) : String :=
  String.mk (s.data.reverse.takeWhile (fun c => c ≠ '/')).reverse

/-- Content of one file written to disk: the descriptor text or an
encoded texture at a given binary format version. -/
inductive FileData
  | vmtText (s : String)
  | vtfData (img : Image) (version : Nat)

/-- One file-write performed by the exporter: target directory
(component list), filename, content.  The exporter's write sequence is
modelled as the ordered list of these events. -/
structure WriteEvent where
  dir : List String
  fname : String
  data : FileData

/-- Translated from CoreBackend.export (backend.py lines 156-177).  The
entry assertion on the output path becomes the None branch; the source
then mutates the passed Material's name to the backend's current name,
renders the textures and descriptor, isolates the last
slash-separated component of the name, and writes the descriptor file
first followed by one file per texture.  Returns the (mutated)
material together with the ordered write sequence. -/
def CoreBackend.export (b : CoreBackend) (material0 : Material) :
    Except PipelineError (Material × List WriteEvent) :=
  match b.path with
  | none => .error .assertionFailed
  | some dir =>
    let material := { material0 with name := b.name }
    let textures := core_export material
    let textureVersion := GameTarget.vtf_version material.target
    let vmt := make_vmt material
    let isolated := isolatedName b.name
    .ok (material,
      { dir := dir, fname := isolated ++ ".vmt", data := .vmtText vmt } ::
      textures.map (fun t =>
        { dir := dir, fname := isolated ++ t.name ++ ".vtf",
          data := .vtfData t.image textureVersion }))

/-- The mutable control state of MainWindow (src/src/module/gui/
__init__.py): the cached output target (as a path component list, None
until chosen), the export-in-progress and watching flags, the watch
set of QFileSystemWatcher (as the ordered path list it reports), the
backend, and the reloadOnExport configuration switch. -/
structure MainWindow where
  target : Option (List String)
  exporting : Bool
  watching : Bool
  watcherFiles : List String
  backend : CoreBackend
  reloadOnExport : Bool

/-- Result of one invocation of the export entry point: the state after
the call, the ordered file writes performed, and the error shown to the
user (None both on success and on the silent user-cancelled abort). -/
structure ExportOutcome where
  st : MainWindow
  writes : List WriteEvent
  reported : Option PipelineError

/-- Translated from MainWindow.pick_target (lines 382-385): the save
dialog result (None when the user cancelled, i.e. an empty string) is
stored as the target only when a path was chosen. -/
def MainWindow.pick_target (dialog : Option (List String)) (st : MainWindow) : MainWindow :=
  match dialog with
  | some t => { st with target := some t }
  | none => st

/-- The non-absent channel source paths of the store, in the fixed
role order of MainWindow.start_watch (lines 446-454). -/
def CoreBackend.nonAbsentPaths (b : CoreBackend) : List String :=
  [b.albedoPath, b.roughnessPath, b.metallicPath, b.emitPath,
   b.aoPath, b.normalPath, b.heightPath].filterMap id

/-- Translated from MainWindow.start_watch (lines 444-455): adds the
current non-absent channel paths to the watch set. -/
def MainWindow.start_watch (st : MainWindow) : MainWindow :=
  { st with watcherFiles := st.watcherFiles ++ st.backend.nonAbsentPaths }

/-- Translated from MainWindow.stop_watch (lines 457-459): removes every
currently watched path. -/
def MainWindow.stop_watch (st : MainWindow) : MainWindow :=
  { st with watcherFiles := [] }

/-- Translated from MainWindow.reset_watch (lines 461-466): a no-op
unless watching; otherwise the watch set is recomputed from scratch by
stop_watch followed by start_watch. -/
def MainWindow.reset_watch (st : MainWindow) : MainWindow :=
  if st.watching then st.stop_watch.start_watch else st

/-- Translated from MainWindow.picked (lines 376-380): the backend pick
runs first; on success the watch set is reconciled and the (optional)
decoded image handed to the icon callback is returned; on a decode
failure the exception propagates out of the slot after the backend
already stored the new path, and reset_watch does not run. -/
def MainWindow.picked (dec : String → Option Image) (kind : ImageRole)
    (path : Option String) (st : MainWindow) :
    MainWindow × Except PipelineError (Option Image) :=
  let r := CoreBackend.pick dec path kind st.backend
  match r.2 with
  | .error e => ({ st with backend := r.1 }, .error e)
  | .ok img => (MainWindow.reset_watch { st with backend := r.1 }, .ok img)

/-- Translated from MainWindow.export (lines 387-425).  The entry
re-entrancy check returns immediately when an export is in flight.
Otherwise the flag is raised, the material is assembled (a failure is
reported and nothing written), the target is prompted for if absent
(still absent means the user cancelled: silent abort), the name/output
directory are resolved by pick_vmt, and the backend export writes the
files.  The finally block lowers the flag on every path.  The dialog
argument stands for the QFileDialog result used by pick_target. -/
def MainWindow.export (dec : String → Option Image)
    (dialog : Option (List String)) (st0 : MainWindow) : ExportOutcome :=
  if st0.exporting then { st := st0, writes := [], reported := none }
  else
    let st1 := { st0 with exporting := true }
    match CoreBackend.make_material dec st1.reloadOnExport st1.backend with
    | .error e =>
        { st := { st1 with exporting := false }, writes := [], reported := some e }
    | .ok (b1, material) =>
      let st2 := { st1 with backend := b1 }
      let st3 := match st2.target with
                 | none => MainWindow.pick_target dialog st2
                 | some _ => st2
      match st3.target with
      | none =>
          { st := { st3 with exporting := false }, writes := [], reported := none }
      | some targetPath =>
        let b2 := CoreBackend.pick_vmt targetPath st3.backend
        match CoreBackend.export b2 material with
        | .error e =>
            { st := { st3 with backend := b2, exporting := false },
              writes := [], reported := some e }
        | .ok (_, writes) =>
            { st := { st3 with backend := b2, exporting := false },
              writes := writes, reported := none }

/-- Translated from MainWindow.export_as (lines 427-431): bails out
while an export is in flight, otherwise clears the cached target and
runs the export entry point (which will prompt). -/
def MainWindow.export_as (dec : String → Option Image)
    (dialog : Option (List String)) (st : MainWindow) : ExportOutcome :=
  if st.exporting then { st := st, writes := [], reported := none }
  else MainWindow.export dec dialog { st with target := none }

/-- Translated from the watcher wiring in MainWindow.__init__ (line
188): the debounce timer's timeout invokes the very same export entry
point, so a watch-triggered export passes through the same re-entrancy
check. -/
def MainWindow.watchTimerFire (dec : String → Option Image)
    (dialog : Option (List String)) (st : MainWindow) : ExportOutcome :=
  MainWindow.export dec dialog st

/-! Shared concrete objects for counterexamples and witnesses. -/

/-- A 1x1 three-component (RGB) flat bitmap. -/
def img1 : Image := Image.blank (1, 1) [0, 0, 0]

/-- A 2x2 single-component (L) flat bitmap. -/
def img2 : Image := Image.blank (2, 2) [0]

/-- A fresh backend with every channel absent. -/
def bdef : CoreBackend := CoreBackend.init .V2023 .PBRModel

/-- A concrete material used by counterexamples. -/
def mdef : Material :=
  { mode := .PBRModel, target := .V2023, size := (1, 1), name := "y",
    albedo := img1, roughness := img2, metallic := img2,
    emit := none, ao := none, normal := img1, height := none }

/-- A fresh window state: nothing picked, not exporting, not watching. -/
def stdef : MainWindow :=
  { target := none, exporting := false, watching := false, watcherFiles := [],
    backend := bdef, reloadOnExport := false }

/-- A watching window state whose store has a roughness path, for the
claim C9 witness. -/
def stW : MainWindow :=
  { stdef with watching := true, backend := { bdef with roughnessPath := some "r.png" } }

/-- Concatenation of components, each followed by a slash: the shape of
the accumulator built by the pick_vmt loop. -/
def slashConcat (l : List String) : String :=
  l.foldr (fun c a => c ++ "/" ++ a) ""

/-- Written from the claim: join a list of components with slash
separators ("joined with /"). -/
def joinSlash : List String → String
  | [] => ""
  | [x] => x
  | x :: y :: xs => x ++ "/" ++ joinSlash (y :: xs)

/-- Written from the claim: the ancestor components strictly between
the nearest component equal to the literal token and the file, in
original order — i.e. the components after the last such occurrence. -/
def afterLastMaterials (ancestors : List String) : List String :=
  (ancestors.reverse.takeWhile (fun c => c ≠ "materials")).reverse

/-- Written from the claim: the material name a path should resolve to —
the filename with the .vmt suffix stripped, prefixed (joined with
slashes) by the components after the nearest materials ancestor when
one exists. -/
def specMaterialName (ancestors : List String) (filename : String) : String :=
  let stem := removesuffix filename ".vmt"
  if "materials" ∈ ancestors then
    joinSlash (afterLastMaterials ancestors ++ [stem])
  else stem

/-- The reference size of a normalization pass in cache mode: the size
of the Normal channel when present, else the size of the Roughness
channel (which the claim and spec name as the reference). -/
def referenceSize (b : CoreBackend) (r : Image) : Nat × Nat :=
  match b.normal with
  | some n => n.size
  | none => r.size

/-- The store holding a 1x1 albedo and a 2x2 roughness, nothing else. -/
def bC1 : CoreBackend := { bdef with albedo := some img1, roughness := some img2 }

/-- The store with every channel present, for the claim C1 witness. -/
def bC1w : CoreBackend :=
  { bdef with albedo := some img1, roughness := some img2, metallic := some img2,
              emit := some img2, ao := some img2, normal := some img1,
              height := some img2 }

/-- Whether a reported error is a missing-channel error. -/
def isMissingChannel : Option PipelineError → Bool
  | some (.missingChannel _) => true
  | _ => false

/-! Helper lemmas about the image operations. -/

theorem Image.convertMode_w (i : Image) (m : ColorMode) : (i.convertMode m).w = i.w := by
  unfold Image.convertMode
  split
  · rfl
  · cases m <;> rfl

theorem Image.convertMode_h (i : Image) (m : ColorMode) : (i.convertMode m).h = i.h := by
  unfold Image.convertMode
  split
  · rfl
  · cases m <;> rfl

theorem Image.convertMode_mode (i : Image) (m : ColorMode) : (i.convertMode m).mode = m := by
  unfold Image.convertMode
  split
  · assumption
  · cases m <;> rfl

theorem Image.convertMode_size (i : Image) (m : ColorMode) : (i.convertMode m).size = i.size := by
  simp [Image.size, Image.convertMode_w, Image.convertMode_h]

theorem Image.blank_size (s : Nat × Nat) (c : List ℚ) : (Image.blank s c).size = s := by
  simp [Image.size, Image.blank]

theorem Image.resize_size (i : Image) (s : Nat × Nat) : (i.resize s).size = s := by
  simp [Image.size, Image.resize]

theorem texops.normalize_size_some (i : Image) (s : Nat × Nat) (m : ColorMode) :
    (texops.normalize i (some s) m).size = s := by
  simp [texops.normalize, Image.convertMode_size, Image.resize_size]

theorem texops.normalize_size_none (i : Image) (m : ColorMode) :
    (texops.normalize i none m).size = i.size := by
  simp [texops.normalize, Image.convertMode_size]

theorem texops.normalize_mode (i : Image) (s : Option (Nat × Nat)) (m : ColorMode) :
    (texops.normalize i s m).mode = m := by
  cases s <;> simp [texops.normalize, Image.convertMode_mode]

/-- Normalizing a flat bitmap whose mode already matches the requested
mode leaves every pixel at its flat color, whatever resize is applied. -/
theorem texops.normalize_blank_pix (s : Nat × Nat) (c : List ℚ)
    (sz : Option (Nat × Nat)) (m : ColorMode)
    (hm : (Image.blank s c).mode = m) :
    (texops.normalize (Image.blank s c) sz m).pix = fun _ _ => c := by
  cases sz <;>
    simp [texops.normalize, Image.convertMode, Image.resize, Image.blank] <;>
    simp [Image.blank] at hm <;>
    simp [hm]

/-! Claim C3. -/

/-- Claim C3 counterexample: picking a path whose decode fails does
store partial state.  Starting from a store whose Albedo entry holds
the old path and a cached image, a failed pick leaves the cached image
but replaces the stored source path with the new, failing path, so the
entry is not what it was before the call. -/
theorem c3_counterexample :
    ({ bdef with albedoPath := some "old.png", albedo := some img1 } :
        CoreBackend).albedoPath = some "old.png" ∧
    (CoreBackend.pick (fun _ => none) (some "bad.png") .Albedo
        { bdef with albedoPath := some "old.png", albedo := some img1 }).1.albedoPath
      = some "bad.png" ∧
    (some "bad.png" : Option String) ≠ some "old.png" ∧
    (CoreBackend.pick (fun _ => none) (some "bad.png") .Albedo
        { bdef with albedoPath := some "old.png", albedo := some img1 }).1.albedo
      = some img1 ∧
    (CoreBackend.pick (fun _ => none) (some "bad.png") .Albedo
        { bdef with albedoPath := some "old.png", albedo := some img1 }).2
      = .error (.decodeError "bad.png") :=
  ⟨rfl, rfl, by decide, rfl, rfl⟩

/-- Claim C3 (amended): when decoding fails, pick raises the decode
error and stores no decoded image — the cached image of every role is
untouched — but the stored source path of the picked role has already
been updated to the new path; the rest of the store is exactly as
before. -/
theorem c3_pick_failure_state (dec : String → Option Image) (p : String)
    (role : ImageRole) (b : CoreBackend) (h : dec p = none) :
    CoreBackend.pick dec (some p) role b =
      (CoreBackend.setRolePath role (some p) b, .error (.decodeError p)) := by
  simp [CoreBackend.pick, CoreBackend.convert, h]

/-- Witness for c3_pick_failure_state at a concrete failing decoder. -/
theorem c3_witness :
    ((fun _ => (none : Option Image)) "x") = none ∧
    CoreBackend.pick (fun _ => none) (some "x") .Albedo bdef =
      (CoreBackend.setRolePath .Albedo (some "x") bdef, .error (.decodeError "x")) :=
  ⟨rfl, c3_pick_failure_state (fun _ => none) "x" .Albedo bdef rfl⟩

/-! Claim C4. -/

/-- Claim C4 counterexample: a Material is not immutable after
construction.  Exporting a material named y through a backend whose
resolved name is x mutates the material: the exported material's name
is x, not the y it was constructed with. -/
theorem c4_counterexample :
    (CoreBackend.export { bdef with path := some [], name := "x" } mdef).toOption.map
        (fun p => p.1.name) = some "x" ∧
    mdef.name = "y" ∧ ("x" : String) ≠ "y" :=
  ⟨rfl, rfl, by decide⟩

/-- Claim C4 (amended): the export step mutates exactly the name field
of the Material it is given — the exported material is the input
material with its name replaced by the backend's current resolved name
and every other field unchanged; each export cycle then constructs its
Material afresh via make_material rather than updating an old one. -/
theorem c4_export_mutates_only_name (b : CoreBackend) (m : Material) (dir : List String) :
    (CoreBackend.export { b with path := some dir } m).toOption.map (fun p => p.1) =
      some { m with name := b.name } := rfl

/-! Claim C6. -/

/-- Claim C6: at most one export runs at a time.  With the
export-in-progress flag set, each of the three trigger entry points
(manual export, export-as, and the watch timer firing) returns
immediately with the state unchanged, no file writes, and nothing
reported. -/
theorem c6_reentrancy_guard (dec : String → Option Image)
    (dialog : Option (List String)) (st : MainWindow) (h : st.exporting = true) :
    MainWindow.export dec dialog st = { st := st, writes := [], reported := none } ∧
    MainWindow.export_as dec dialog st = { st := st, writes := [], reported := none } ∧
    MainWindow.watchTimerFire dec dialog st = { st := st, writes := [], reported := none } := by
  unfold MainWindow.watchTimerFire MainWindow.export_as MainWindow.export
  simp [h]

/-- Witness for c6_reentrancy_guard at a concrete in-flight state. -/
theorem c6_witness :
    ({ stdef with exporting := true } : MainWindow).exporting = true ∧
    MainWindow.export (fun _ => none) none { stdef with exporting := true } =
      { st := { stdef with exporting := true }, writes := [], reported := none } :=
  ⟨rfl, (c6_reentrancy_guard (fun _ => none) none _ rfl).1⟩

/-! Claim C9. -/

/-- Claim C9: after every successful pick or clear performed while
watching, the watch set is exactly the list of non-absent channel
source paths of the resulting store. -/
theorem c9_watch_reconciliation (dec : String → Option Image) (kind : ImageRole)
    (path : Option String) (st : MainWindow)
    (hw : st.watching = true)
    (hok : (MainWindow.picked dec kind path st).2.isOk = true) :
    (MainWindow.picked dec kind path st).1.watcherFiles =
      (MainWindow.picked dec kind path st).1.backend.nonAbsentPaths := by
  unfold MainWindow.picked at hok ⊢
  rcases hE : CoreBackend.pick dec path kind st.backend with ⟨b1, res⟩
  simp only [hE] at hok ⊢
  cases res with
  | error e => simp [Except.isOk, Except.toBool] at hok
  | ok img =>
      simp [MainWindow.reset_watch, MainWindow.stop_watch, MainWindow.start_watch, hw]

/-- Witness for c9_watch_reconciliation: clearing the Albedo role while
watching, on a store that has a roughness path. -/
theorem c9_witness :
    stW.watching = true ∧
    (MainWindow.picked (fun _ => none) .Albedo none stW).2.isOk = true ∧
    (MainWindow.picked (fun _ => none) .Albedo none stW).1.watcherFiles =
      (MainWindow.picked (fun _ => none) .Albedo none stW).1.backend.nonAbsentPaths :=
  ⟨rfl, rfl, c9_watch_reconciliation (fun _ => none) .Albedo none _ rfl rfl⟩

/-! Claim C2: name resolution. -/

theorem slashConcat_append (m : List String) (c : String) :
    slashConcat (m ++ [c]) = slashConcat m ++ (c ++ "/") := by
  induction m with
  | nil => simp [slashConcat, String.empty_append, String.append_empty]
  | cons x xs ih =>
      simp only [List.cons_append, slashConcat, List.foldr_cons] at *
      rw [ih]
      simp [String.append_assoc]

theorem nameLoop_not_mem (l : List String) (acc : String) (h : "materials" ∉ l) :
    nameLoop l acc = (slashConcat l.reverse ++ acc, false) := by
  induction l generalizing acc with
  | nil => simp [nameLoop, slashConcat, String.empty_append]
  | cons c rest ih =>
      rw [List.mem_cons, not_or] at h
      rw [nameLoop, if_neg (fun hc => h.1 hc.symm), ih _ h.2,
        List.reverse_cons, slashConcat_append]
      simp [String.append_assoc]

theorem nameLoop_mem (l : List String) (acc : String) (h : "materials" ∈ l) :
    nameLoop l acc =
      (slashConcat (l.takeWhile (fun c => c ≠ "materials")).reverse ++ acc, true) := by
  induction l generalizing acc with
  | nil => cases h
  | cons c rest ih =>
      by_cases hc : c = "materials"
      · subst hc
        simp [nameLoop, List.takeWhile_cons, slashConcat, String.empty_append]
      · have hr : "materials" ∈ rest := by
          rcases List.mem_cons.mp h with h1 | h2
          · exact absurd h1.symm hc
          · exact h2
        rw [nameLoop, if_neg hc, ih _ hr, List.takeWhile_cons,
          if_pos (by simpa using hc), List.reverse_cons, slashConcat_append]
        simp [String.append_assoc]

theorem joinSlash_cons_of_ne (x : String) (l : List String) (h : l ≠ []) :
    joinSlash (x :: l) = x ++ "/" ++ joinSlash l := by
  cases l with
  | nil => exact absurd rfl h
  | cons y ys => rfl

theorem joinSlash_concat (seg : List String) (stem : String) :
    joinSlash (seg ++ [stem]) = slashConcat seg ++ stem := by
  induction seg with
  | nil => simp [joinSlash, slashConcat, String.empty_append]
  | cons x xs ih =>
      rw [List.cons_append, joinSlash_cons_of_ne x (xs ++ [stem]) (by simp),
        ih]
      simp only [slashConcat, List.foldr_cons]
      simp [String.append_assoc]

/-- The pick_vmt material name agrees with the name the claim
describes, for every decomposition of a path into ancestor components
plus a filename. -/
theorem pick_vmt_name_spec (b : CoreBackend) (ancestors : List String)
    (filename : String) :
    (CoreBackend.pick_vmt (ancestors ++ [filename]) b).name =
      specMaterialName ancestors filename := by
  unfold CoreBackend.pick_vmt specMaterialName
  simp only [List.dropLast_concat, List.getLastD_concat]
  by_cases hm : "materials" ∈ ancestors
  · rw [nameLoop_mem _ _ (by simpa using hm), if_pos hm, joinSlash_concat]
    simp [afterLastMaterials, String.append_empty]
  · rw [nameLoop_not_mem _ _ (by simpa using hm), if_neg hm]
    simp

/-- Claim C2: for every output file path, the derived material name is
the filename with the .vmt suffix stripped, prefixed by the components
strictly between the nearest materials ancestor and the file joined
with slashes when such an ancestor exists, and the bare stem otherwise;
in particular the two concrete resolutions of the claim hold. -/
theorem c2_material_name :
    (∀ (b : CoreBackend) (ancestors : List String) (filename : String),
      (CoreBackend.pick_vmt (ancestors ++ [filename]) b).name =
        specMaterialName ancestors filename) ∧
    (CoreBackend.pick_vmt ["/", "a", "materials", "b", "c.vmt"] bdef).name = "b/c" ∧
    (CoreBackend.pick_vmt ["/", "a", "b", "c.vmt"] bdef).name = "c" :=
  ⟨fun b ancestors filename => pick_vmt_name_spec b ancestors filename,
   by decide, by decide⟩

/-! Claim C10. -/

/-- Claim C10: name resolution strips only the literal .vmt suffix.
A filename that does not end in .vmt survives in full (including its
extension) as a suffix of the derived material name, and for every
filename the stripped stem is either the filename itself or the
filename minus exactly the .vmt suffix — no other extension is ever
removed. -/
theorem c10_strips_only_vmt (filename : String) :
    (¬ (".vmt" : String).data <:+ filename.data →
      removesuffix filename ".vmt" = filename) ∧
    ((".vmt" : String).data <:+ filename.data →
      removesuffix filename ".vmt" ++ ".vmt" = filename) ∧
    (∀ (ancestors : List String) (b : CoreBackend),
      ¬ (".vmt" : String).data <:+ filename.data →
        filename.data <:+ ((CoreBackend.pick_vmt (ancestors ++ [filename]) b).name).data) := by
  have hno : ∀ h : ¬ (".vmt" : String).data <:+ filename.data,
      removesuffix filename ".vmt" = filename := by
    intro h
    simp [removesuffix, List.isSuffixOf_iff_suffix, h]
  refine ⟨hno, ?_, ?_⟩
  · intro h
    obtain ⟨t, ht⟩ := h
    have hcond : (".vmt" : String).data.isSuffixOf filename.data = true := by
      rw [List.isSuffixOf_iff_suffix]
      exact ⟨t, ht⟩
    have hd : filename.data = t ++ (".vmt" : String).data := ht.symm
    rw [removesuffix, if_pos hcond]
    apply String.ext
    rw [String.data_append]
    show (filename.data.take (filename.data.length - (".vmt" : String).data.length))
        ++ (".vmt" : String).data = filename.data
    rw [hd, List.length_append, Nat.add_sub_cancel, List.take_left]
  · intro ancestors b h
    rw [pick_vmt_name_spec, specMaterialName, hno h]
    by_cases hm : "materials" ∈ ancestors
    · rw [if_pos hm, joinSlash_concat, String.data_append]
      exact List.suffix_append _ _
    · rw [if_neg hm]

/-- Witness for c10_strips_only_vmt at a filename with a non-vmt
extension. -/
theorem c10_witness :
    (¬ (".vmt" : String).data <:+ ("c.png" : String).data) ∧
    removesuffix "c.png" ".vmt" = "c.png" ∧
    ("c.png" : String).data <:+
      ((CoreBackend.pick_vmt (["m"] ++ ["c.png"]) bdef).name).data :=
  ⟨by decide, (c10_strips_only_vmt "c.png").1 (by decide),
   (c10_strips_only_vmt "c.png").2.2 ["m"] bdef (by decide)⟩

/-! Claim C8. -/

theorem takeWhile_append_stop {α : Type} (p : α → Bool) (l1 : List α) (x : α)
    (l2 : List α) (h1 : ∀ a ∈ l1, p a = true) (hx : p x = false) :
    (l1 ++ x :: l2).takeWhile p = l1 := by
  induction l1 with
  | nil => simp [List.takeWhile_cons, hx]
  | cons a as ih =>
      simp only [List.cons_append, List.takeWhile_cons,
        h1 a (List.mem_cons_self a as), if_true]
      rw [ih (fun c hc => h1 c (List.mem_cons_of_mem a hc))]

theorem takeWhile_all {α : Type} (p : α → Bool) (l : List α)
    (h : ∀ a ∈ l, p a = true) : l.takeWhile p = l := by
  induction l with
  | nil => rfl
  | cons a as ih =>
      simp only [List.takeWhile_cons, h a (List.mem_cons_self a as), if_true]
      rw [ih (fun c hc => h c (List.mem_cons_of_mem a hc))]

/-- The isolated name of a compound name ending in a slash-free last
component is that component. -/
theorem isolatedName_append (pre c : String) (h : '/' ∉ c.data) :
    isolatedName (pre ++ "/" ++ c) = c := by
  unfold isolatedName
  have hd : (pre ++ "/" ++ c).data = (pre.data ++ ['/']) ++ c.data := by
    rw [String.data_append, String.data_append]
  rw [hd, List.reverse_append]
  have h2 : (pre.data ++ ['/']).reverse = '/' :: pre.data.reverse := by simp
  rw [h2, takeWhile_append_stop _ _ _ _ ?ha (by decide)]
  case ha =>
    intro a ha
    rw [List.mem_reverse] at ha
    simp only [ne_eq, decide_eq_true_eq]
    exact fun heq => h (heq ▸ ha)
  rw [List.reverse_reverse]

/-- The isolated name of a slash-free name is the name itself. -/
theorem isolatedName_no_slash (c : String) (h : '/' ∉ c.data) :
    isolatedName c = c := by
  unfold isolatedName
  rw [takeWhile_all _ _ ?ha, List.reverse_reverse]
  case ha =>
    intro a ha
    rw [List.mem_reverse] at ha
    simp only [ne_eq, decide_eq_true_eq]
    exact fun heq => h (heq ▸ ha)

/-- Claim C8: on every successful export the write sequence begins with
the descriptor file and continues with one texture file per produced
texture, every filename being built from the isolated name only (the
descriptor as isolated plus .vmt, each texture as isolated plus suffix
plus .vtf), all under the output directory; and the isolated name is
exactly the last slash-separated component of the material name. -/
theorem c8_persistence_order (b : CoreBackend) (m : Material) (dir : List String) :
    (CoreBackend.export { b with path := some dir } m =
      .ok ({ m with name := b.name },
        { dir := dir, fname := isolatedName b.name ++ ".vmt",
          data := .vmtText (make_vmt { m with name := b.name }) } ::
        (core_export { m with name := b.name }).map (fun t =>
          { dir := dir, fname := isolatedName b.name ++ t.name ++ ".vtf",
            data := .vtfData t.image (GameTarget.vtf_version m.target) }))) ∧
    (∀ (pre c : String), '/' ∉ c.data → isolatedName (pre ++ "/" ++ c) = c) ∧
    (∀ (c : String), '/' ∉ c.data → isolatedName c = c) :=
  ⟨rfl, fun pre c h => isolatedName_append pre c h,
   fun c h => isolatedName_no_slash c h⟩

/-- Witness for c8_persistence_order on a concrete compound name. -/
theorem c8_witness :
    ('/' ∉ ("b" : String).data) ∧ isolatedName ("a" ++ "/" ++ "b") = "b" :=
  ⟨by decide, (c8_persistence_order bdef mdef ["d"]).2.1 "a" "b" (by decide)⟩

/-! Claim C1. -/

/-- Claim C1 counterexample: with a 1x1 albedo and a 2x2 roughness and
no normal, the reference size is 2x2 (the roughness size, which is
also the assembled material size), yet the normalized albedo channel
keeps its own 1x1 size — so not every present channel is resized to
the reference size. -/
theorem c1_counterexample :
    (CoreBackend.make_material (fun _ => none) false bC1).toOption.map
        (fun p => (p.2.albedo.size, p.2.size)) = some ((1, 1), (2, 2)) ∧
    ((1, 1) : Nat × Nat) ≠ (2, 2) := ⟨rfl, by decide⟩

/-- Claim C1 (amended): for every channel set containing Albedo and
Roughness, normalization (in cache mode) resizes Roughness, Metallic
and Height to the reference size (the Normal size if Normal is
present, else the Roughness size), Normal itself ends up at the
reference size, and the assembled size is the reference size; Albedo
however keeps its own size, and Emit and AO (when present) are resized
to the Albedo size, not the reference size.  Mode conversion is as the
claim states: Albedo and Normal become three-component color, every
other channel single-component scalar. -/
theorem c1_normalized_sizes (dec : String → Option Image) (b : CoreBackend)
    (a r : Image) (ha : b.albedo = some a) (hr : b.roughness = some r) :
    (CoreBackend.make_material dec false b).toOption.map (fun p =>
      (p.2.albedo.size, p.2.roughness.size, p.2.metallic.size,
       p.2.normal.size, p.2.height.map Image.size,
       p.2.emit.map Image.size, p.2.ao.map Image.size, p.2.size,
       p.2.albedo.mode, p.2.roughness.mode, p.2.metallic.mode,
       p.2.normal.mode, p.2.height.map Image.mode,
       p.2.emit.map Image.mode, p.2.ao.map Image.mode)) =
    some (a.size, referenceSize b r, referenceSize b r, referenceSize b r,
          some (referenceSize b r),
          b.emit.map (fun _ => a.size), b.ao.map (fun _ => a.size),
          referenceSize b r,
          .RGB, .L, .L, .RGB, some .L,
          b.emit.map (fun _ => ColorMode.L), b.ao.map (fun _ => ColorMode.L)) := by
  rcases hm : b.metallic with _ | mi <;>
  rcases he : b.emit with _ | ei <;>
  rcases hao : b.ao with _ | ai <;>
  rcases hn : b.normal with _ | ni <;>
  rcases hh : b.height with _ | hi <;>
    simp [CoreBackend.make_material, CoreBackend.getImage, CoreBackend.roleImage,
      ha, hr, hm, he, hao, hn, hh, referenceSize,
      texops.normalize_size_some, texops.normalize_size_none, texops.normalize_mode,
      Image.blank_size, Bind.bind, Except.bind, Except.toOption]

/-- Witness for c1_normalized_sizes at a fully populated concrete store. -/
theorem c1_witness :
    bC1w.albedo = some img1 ∧ bC1w.roughness = some img2 ∧
    (CoreBackend.make_material (fun _ => none) false bC1w).toOption.map (fun p =>
      (p.2.albedo.size, p.2.roughness.size, p.2.metallic.size,
       p.2.normal.size, p.2.height.map Image.size,
       p.2.emit.map Image.size, p.2.ao.map Image.size, p.2.size,
       p.2.albedo.mode, p.2.roughness.mode, p.2.metallic.mode,
       p.2.normal.mode, p.2.height.map Image.mode,
       p.2.emit.map Image.mode, p.2.ao.map Image.mode)) =
    some (img1.size, referenceSize bC1w img2, referenceSize bC1w img2,
          referenceSize bC1w img2, some (referenceSize bC1w img2),
          bC1w.emit.map (fun _ => img1.size), bC1w.ao.map (fun _ => img1.size),
          referenceSize bC1w img2,
          .RGB, .L, .L, .RGB, some .L,
          bC1w.emit.map (fun _ => ColorMode.L), bC1w.ao.map (fun _ => ColorMode.L)) :=
  ⟨rfl, rfl, c1_normalized_sizes (fun _ => none) bC1w img1 img2 rfl rfl⟩

/-! Claim C7. -/

theorem Image.blank_mode (s : Nat × Nat) (c : List ℚ) :
    (Image.blank s c).mode = if c.length = 1 then .L else .RGB := rfl

/-- Claim C7: with Albedo and Roughness present (cache mode), a missing
Metallic is synthesized as a constant 0.0 single-component channel at
the reference size; a missing Normal as a constant (0.5, 0.5, 1.0)
three-component channel at the reference size; a missing Height as a
constant 0.5 single-component channel (also at the reference size);
and a missing Emit or AO stays absent in the assembled material. -/
theorem c7_synthesized_defaults (dec : String → Option Image) (b : CoreBackend)
    (a r : Image) (ha : b.albedo = some a) (hr : b.roughness = some r) :
    (b.metallic = none →
      (CoreBackend.make_material dec false b).toOption.map (fun p =>
        (p.2.metallic.size, p.2.metallic.mode, p.2.metallic.pix)) =
      some (referenceSize b r, .L, fun _ _ => ([0] : List ℚ))) ∧
    (b.normal = none →
      (CoreBackend.make_material dec false b).toOption.map (fun p =>
        (p.2.normal.size, p.2.normal.mode, p.2.normal.pix)) =
      some (referenceSize b r, .RGB, fun _ _ => ([0.5, 0.5, 1.0] : List ℚ))) ∧
    (b.height = none →
      (CoreBackend.make_material dec false b).toOption.map (fun p =>
        p.2.height.map (fun hh => (hh.size, hh.mode, hh.pix))) =
      some (some (referenceSize b r, .L, fun _ _ => ([0.5] : List ℚ)))) ∧
    (b.emit = none →
      (CoreBackend.make_material dec false b).toOption.map (fun p => p.2.emit.isSome) =
      some false) ∧
    (b.ao = none →
      (CoreBackend.make_material dec false b).toOption.map (fun p => p.2.ao.isSome) =
      some false) := by
  refine ⟨?_, ?_, ?_, ?_, ?_⟩
  · intro h0
    rcases he : b.emit with _ | ei <;> rcases hao : b.ao with _ | ai <;>
    rcases hn : b.normal with _ | ni <;> rcases hh : b.height with _ | hi <;>
      simp [CoreBackend.make_material, CoreBackend.getImage, CoreBackend.roleImage,
        ha, hr, h0, he, hao, hn, hh, referenceSize,
        texops.normalize_size_some, texops.normalize_size_none, texops.normalize_mode,
        texops.normalize_blank_pix, Image.blank_size, Image.blank_mode,
        Bind.bind, Except.bind, Except.toOption]
  · intro h0
    rcases hm : b.metallic with _ | mi <;> rcases he : b.emit with _ | ei <;>
    rcases hao : b.ao with _ | ai <;> rcases hh : b.height with _ | hi <;>
      simp [CoreBackend.make_material, CoreBackend.getImage, CoreBackend.roleImage,
        ha, hr, h0, hm, he, hao, hh, referenceSize,
        texops.normalize_size_some, texops.normalize_size_none, texops.normalize_mode,
        texops.normalize_blank_pix, Image.blank_size, Image.blank_mode,
        Bind.bind, Except.bind, Except.toOption]
  · intro h0
    rcases hm : b.metallic with _ | mi <;> rcases he : b.emit with _ | ei <;>
    rcases hao : b.ao with _ | ai <;> rcases hn : b.normal with _ | ni <;>
      simp [CoreBackend.make_material, CoreBackend.getImage, CoreBackend.roleImage,
        ha, hr, h0, hm, he, hao, hn, referenceSize,
        texops.normalize_size_some, texops.normalize_size_none, texops.normalize_mode,
        texops.normalize_blank_pix, Image.blank_size, Image.blank_mode,
        Bind.bind, Except.bind, Except.toOption]
  · intro h0
    rcases hm : b.metallic with _ | mi <;> rcases hao : b.ao with _ | ai <;>
    rcases hn : b.normal with _ | ni <;> rcases hh : b.height with _ | hi <;>
      simp [CoreBackend.make_material, CoreBackend.getImage, CoreBackend.roleImage,
        ha, hr, h0, hm, hao, hn, hh,
        Bind.bind, Except.bind, Except.toOption]
  · intro h0
    rcases hm : b.metallic with _ | mi <;> rcases he : b.emit with _ | ei <;>
    rcases hn : b.normal with _ | ni <;> rcases hh : b.height with _ | hi <;>
      simp [CoreBackend.make_material, CoreBackend.getImage, CoreBackend.roleImage,
        ha, hr, h0, hm, he, hn, hh,
        Bind.bind, Except.bind, Except.toOption]

/-- Witness for c7_synthesized_defaults at the concrete store holding
only a 1x1 albedo and a 2x2 roughness. -/
theorem c7_witness :
    bC1.albedo = some img1 ∧ bC1.roughness = some img2 ∧
    bC1.metallic = none ∧ bC1.normal = none ∧ bC1.height = none ∧
    bC1.emit = none ∧ bC1.ao = none ∧
    ((CoreBackend.make_material (fun _ => none) false bC1).toOption.map (fun p =>
        (p.2.metallic.size, p.2.metallic.mode, p.2.metallic.pix)) =
      some (referenceSize bC1 img2, .L, fun _ _ => ([0] : List ℚ))) ∧
    ((CoreBackend.make_material (fun _ => none) false bC1).toOption.map (fun p =>
        (p.2.normal.size, p.2.normal.mode, p.2.normal.pix)) =
      some (referenceSize bC1 img2, .RGB, fun _ _ => ([0.5, 0.5, 1.0] : List ℚ))) ∧
    ((CoreBackend.make_material (fun _ => none) false bC1).toOption.map (fun p =>
        p.2.height.map (fun hh => (hh.size, hh.mode, hh.pix))) =
      some (some (referenceSize bC1 img2, .L, fun _ _ => ([0.5] : List ℚ)))) ∧
    ((CoreBackend.make_material (fun _ => none) false bC1).toOption.map
        (fun p => p.2.emit.isSome) = some false) ∧
    ((CoreBackend.make_material (fun _ => none) false bC1).toOption.map
        (fun p => p.2.ao.isSome) = some false) := by
  have h := c7_synthesized_defaults (fun _ => none) bC1 img1 img2 rfl rfl
  exact ⟨rfl, rfl, rfl, rfl, rfl, rfl, rfl,
    h.1 rfl, h.2.1 rfl, h.2.2.1 rfl, h.2.2.2.1 rfl, h.2.2.2.2 rfl⟩

/-! Claim C5. -/

/-- With a mandatory channel fully absent (no cached image and no
stored path), assembly always fails; when moreover every decode
succeeds, the failure is specifically a missing-channel error. -/
theorem make_material_missing (dec : String → Option Image) (noCache : Bool)
    (b : CoreBackend)
    (habs : (b.albedo = none ∧ b.albedoPath = none) ∨
            (b.roughness = none ∧ b.roughnessPath = none)) :
    ∃ e, CoreBackend.make_material dec noCache b = .error e ∧
      ((∀ p, dec p ≠ none) → isMissingChannel (some e) = true) := by
  rcases habs with ⟨hi, hp⟩ | ⟨hi, hp⟩
  · refine ⟨.missingChannel .Albedo, ?_, fun _ => rfl⟩
    cases noCache <;>
      simp [CoreBackend.make_material, CoreBackend.getImage, CoreBackend.roleImage,
        CoreBackend.rolePath, hi, hp, Bind.bind, Except.bind]
  · cases noCache with
    | false =>
        cases hai : b.albedo with
        | none =>
            refine ⟨.missingChannel .Albedo, ?_, fun _ => rfl⟩
            simp [CoreBackend.make_material, CoreBackend.getImage,
              CoreBackend.roleImage, hai, Bind.bind, Except.bind]
        | some a =>
            refine ⟨.missingChannel .Roughness, ?_, fun _ => rfl⟩
            simp [CoreBackend.make_material, CoreBackend.getImage,
              CoreBackend.roleImage, hai, hi, Bind.bind, Except.bind]
    | true =>
        cases hap : b.albedoPath with
        | none =>
            refine ⟨.missingChannel .Albedo, ?_, fun _ => rfl⟩
            simp [CoreBackend.make_material, CoreBackend.getImage,
              CoreBackend.rolePath, hap, Bind.bind, Except.bind]
        | some p =>
            cases hdec : dec p with
            | none =>
                refine ⟨.decodeError p, ?_, fun hgood => absurd hdec (hgood p)⟩
                simp [CoreBackend.make_material, CoreBackend.getImage,
                  CoreBackend.rolePath, CoreBackend.convert, hap, hdec,
                  Bind.bind, Except.bind]
            | some img =>
                refine ⟨.missingChannel .Roughness, ?_, fun _ => rfl⟩
                simp [CoreBackend.make_material, CoreBackend.getImage,
                  CoreBackend.rolePath, CoreBackend.convert,
                  CoreBackend.setRoleImage, hap, hdec, hp,
                  Bind.bind, Except.bind]

/-- Claim C5: when Albedo or Roughness is absent from the channel set,
the export attempt fails before any artifact is produced — the write
sequence is empty and an error is reported; and whenever the decoder
cannot itself fail, the reported error is the missing-channel
error. -/
theorem c5_missing_mandatory (dec : String → Option Image)
    (dialog : Option (List String)) (st : MainWindow)
    (hexp : st.exporting = false)
    (habs : (st.backend.albedo = none ∧ st.backend.albedoPath = none) ∨
            (st.backend.roughness = none ∧ st.backend.roughnessPath = none)) :
    (MainWindow.export dec dialog st).writes = [] ∧
    (MainWindow.export dec dialog st).reported.isSome = true ∧
    ((∀ p, dec p ≠ none) →
      isMissingChannel (MainWindow.export dec dialog st).reported = true) := by
  obtain ⟨e, he, hcl⟩ := make_material_missing dec st.reloadOnExport st.backend habs
  refine ⟨?_, ?_, ?_⟩ <;>
    simp [MainWindow.export, hexp, he]
  exact fun hgood => hcl hgood

/-- Witness for c5_missing_mandatory: the empty store with an
always-succeeding decoder. -/
theorem c5_witness :
    stdef.exporting = false ∧
    (stdef.backend.albedo = none ∧ stdef.backend.albedoPath = none) ∧
    (MainWindow.export (fun _ => some img1) none stdef).writes = [] ∧
    (MainWindow.export (fun _ => some img1) none stdef).reported.isSome = true ∧
    isMissingChannel (MainWindow.export (fun _ => some img1) none stdef).reported = true := by
  have h := c5_missing_mandatory (fun _ => some img1) none stdef rfl (Or.inl ⟨rfl, rfl⟩)
  exact ⟨rfl, ⟨rfl, rfl⟩, h.1, h.2.1, h.2.2 (fun p hp => Option.noConfusion hp)⟩

end PBR
